import Mathlib

/-!
# Verification of the ohim identity / lifecycle core

Shallow embedding of the agent-cluster keying algorithm
(`src/browsing_context.rs`), the session-history construction
(`src/navigible.rs`), the traced-handle allocator wrapper
(`src/object.rs`) and the DOM node-tree mutation algorithms
(`src/dom/node.rs`), together with theorems settling the frozen
claims about them.

Conventions:
* Rust `HashMap` values that the algorithms only read and insert into
  are embedded as association lists whose `insert` conses a fresh
  binding at the front (lookup therefore sees the newest binding,
  exactly as a `HashMap` insert-then-get does).
* The process-wide atomic ID counters are threaded explicitly as `Nat`
  state.
* GC-traced handles (`Object<T>`, `Rooted<ExternRef>`) become `Nat`
  handles into an explicit heap (`Handle → NodeImpl`); `Rooted::ref_eq`
  (handle identity) becomes `Nat` equality.
-/

namespace Ohim

/-- `url::Host` of a tuple origin; the keying algorithm treats it as an
opaque comparable value, so a plain string model suffices. -/
abbrev Host := String

/-- `ImmutableOrigin` from `src/url.rs`: an opaque origin (globally
unique identifier, modelled as a `Nat`) or a (scheme, host, port)
tuple (`port : u16`, modelled as `Nat`; only the `u16::MAX = 65535`
sentinel matters to the algorithms below). -/
inductive ImmutableOrigin
  | Opaque (id : Nat)
  | Tuple (scheme : String) (host : Host) (port : Nat)
deriving DecidableEq, Repr

/-- `IsolationMode` from `src/browsing_context.rs`
(cross-origin isolation mode; `Default` is `None`). -/
inductive IsolationMode
  | none
  | logical
  | concrete
deriving DecidableEq, Repr

/-- `obtain_site` from `src/browsing_context.rs`: opaque origins map to
themselves; tuple origins keep scheme and host and substitute the
sentinel port `u16::MAX` (the registrable-domain computation is
unimplemented in the source). -/
def obtain_site (origin : ImmutableOrigin) : ImmutableOrigin :=
  match origin with
  | .Opaque i => .Opaque i
  | .Tuple scheme host _ => .Tuple scheme host 65535

/-- `AgentCluster` from `src/agent.rs`; the `agent` field holds the
`AgentID` (the value of the global agent counter at creation). -/
structure AgentCluster where
  isolation_mode : IsolationMode
  origin_keyed : Bool
  agent : Nat
deriving DecidableEq, Repr

/-- Association-list lookup standing in for `HashMap::get`. -/
def alistGet {β : Type} (m : List (ImmutableOrigin × β)) (k : ImmutableOrigin) :
    Option β :=
  match m with
  | [] => Option.none
  | (k', v) :: rest => if k' = k then some v else alistGet rest k

/-- `BrowsingContextGroup` from `src/browsing_context.rs` (the `id` and
`browsing_context` membership set are carried along but not read by the
keying algorithm). -/
structure BrowsingContextGroup where
  id : Nat := 0
  browsing_context : List Nat := []
  agent_cluster : List (ImmutableOrigin × AgentCluster) := []
  historical_agent_cluster : List (ImmutableOrigin × ImmutableOrigin) := []
  isolation_mode : IsolationMode := .none
deriving DecidableEq, Repr

/-- The agent-cluster key and updated historical map computed by the
first half of `BrowsingContextGroup::window_agent`
(`src/browsing_context.rs:194-212`), exactly as the source branches:
if the group's isolation mode is `None` the key is the origin; otherwise
a cached historical key is reused, or a fresh key (origin if `oac`,
site otherwise) is computed and recorded. -/
def window_agent_key_hist (g : BrowsingContextGroup) (origin : ImmutableOrigin)
    (oac : Bool) : ImmutableOrigin × List (ImmutableOrigin × ImmutableOrigin) :=
  if g.isolation_mode = IsolationMode.none then
    (origin, g.historical_agent_cluster)
  else
    match alistGet g.historical_agent_cluster origin with
    | some k => (k, g.historical_agent_cluster)
    | Option.none =>
      let k := if oac then origin else obtain_site origin
      (k, (origin, k) :: g.historical_agent_cluster)

/-- Just the key computed by `window_agent` for the given group state
and arguments. -/
def window_agent_key (g : BrowsingContextGroup) (origin : ImmutableOrigin)
    (oac : Bool) : ImmutableOrigin :=
  (window_agent_key_hist g origin oac).1

/-- `BrowsingContextGroup::window_agent` from
`src/browsing_context.rs:192-230`. `counter` is the global `AgentID`
allocation counter (`Agent::create` returns its current value and
increments it). Returns the `AgentID` together with the updated group
and counter. -/
def window_agent (g : BrowsingContextGroup) (counter : Nat)
    (origin : ImmutableOrigin) (oac : Bool) :
    Nat × BrowsingContextGroup × Nat :=
  let kh := window_agent_key_hist g origin oac
  let g' := { g with historical_agent_cluster := kh.2 }
  match alistGet g'.agent_cluster kh.1 with
  | some cluster => (cluster.agent, g', counter)
  | Option.none =>
    let cluster : AgentCluster :=
      { isolation_mode := g'.isolation_mode
        origin_keyed := decide (kh.1 = origin)
        agent := counter }
    (counter, { g' with agent_cluster := (kh.1, cluster) :: g'.agent_cluster },
      counter + 1)

/-- Run a sequence of `window_agent` calls against a group, threading
the agent counter; used to state trace properties. -/
def window_agent_run (g : BrowsingContextGroup) (counter : Nat)
    (calls : List (ImmutableOrigin × Bool)) : BrowsingContextGroup × Nat :=
  match calls with
  | [] => (g, counter)
  | (o, b) :: rest =>
    let r := window_agent g counter o b
    window_agent_run r.2.1 r.2.2 rest

/-- `DOMUrl` is an opaque URL value to the algorithms verified here. -/
abbrev DOMUrl := String

/-- `DocumentState` from `src/navigible.rs`. The `document` field holds
a `Document` handle, modelled as a `Nat`. -/
structure DocumentState where
  document : Option Nat := Option.none
  initiator_origin : Option ImmutableOrigin := Option.none
  origin : Option ImmutableOrigin := Option.none
  target : String := ""
  about_base_url : Option DOMUrl := Option.none
deriving DecidableEq, Repr

/-- `SessionHistory` from `src/navigible.rs`. -/
structure SessionHistory where
  id : Nat
  step : Option Nat
  url : DOMUrl
  state : DocumentState
deriving DecidableEq, Repr

/-- `Traversable` from `src/navigible.rs` (`history_entries` map as an
association list keyed by `SessionHistoryID`). -/
structure Traversable where
  history_entries : List (Nat × SessionHistory) := []
deriving DecidableEq, Repr

/-- `Navigable` from `src/navigible.rs`. The `browsing_context` /
`browsing_context_group` registries the source keeps on the navigable
hold the context/group objects produced by document creation; only
their registered IDs matter to the session-history bookkeeping, so
they are carried as ID lists. -/
structure Navigable where
  id : Nat := 0
  parent : Option Nat := Option.none
  current_entry : Option Nat := Option.none
  active_entry : Option Nat := Option.none
  traversable : Option Traversable := Option.none
  browsing_context : List Nat := []
  browsing_context_group : List Nat := []
deriving DecidableEq, Repr

/-- `Navigable::initialize` from `src/navigible.rs:116-136`: builds a
fresh entry with `step = None`, points the navigable's current and
active entry at it and sets the parent. `shCounter` is the global
`SessionHistoryID` counter. -/
def Navigable.initialize_navigable (nav : Navigable) (state : DocumentState)
    (url : DOMUrl) (parent : Option Nat) (shCounter : Nat) :
    SessionHistory × Navigable × Nat :=
  let entry : SessionHistory :=
    { id := shCounter, step := Option.none, url := url, state := state }
  (entry,
   { nav with current_entry := some entry.id, active_entry := some entry.id,
              parent := parent },
   shCounter + 1)

/-- `Navigable::create_top_traversable` from `src/navigible.rs:58-113`,
`opener = None` path (the `Some(_)` arm is `todo!()` in the source).
Document construction (`BrowsingContext::new_top_browsing_context`) is
external to this algorithm: the produced document is represented by its
handle plus the three observable fields the algorithm reads from it
(`url`, `origin`, `about_base_url`), passed as parameters together
with the group and context IDs registered on the navigable. -/
def Navigable.create_top_traversable (docHandle : Nat) (docUrl : DOMUrl)
    (docOrigin : ImmutableOrigin) (docAboutBase : Option DOMUrl)
    (groupId ctxId : Nat) (target : String) (navCounter shCounter : Nat) :
    Navigable × Nat :=
  let traversable : Navigable := { id := navCounter }
  let traversable :=
    { traversable with browsing_context_group := [groupId],
                       browsing_context := [ctxId] }
  let state : DocumentState :=
    { initiator_origin := Option.none
      origin := some docOrigin
      target := target
      about_base_url := docAboutBase
      document := some docHandle }
  let r := Navigable.initialize_navigable traversable state docUrl Option.none shCounter
  let initial_entry := { r.1 with step := some 0 }
  let nav := { r.2.1 with
    traversable :=
      some { history_entries := [(initial_entry.id, initial_entry)] } }
  (nav, r.2.2)

/-- Rust type tags for `ExternRef` payloads as they appear in
`Object::new`'s error recovery: wasmtime's heap-pressure error
`GcHeapOutOfMemory<T>` is parameterized by the type of the value whose
allocation failed (it carries that value, recoverable via
`take_inner`). The repository's `Object::new` calls allocate only the
four `*Impl` payloads; `&'static str` is the type named by the
source's `downcast` target and is never allocated anywhere in the
repository. -/
inductive PayloadType
  | strRef
  | nodeImpl
  | windowImpl
  | documentImpl
  | elementImpl
deriving DecidableEq, Repr

/-- An allocation failure from the traced heap as seen by
`Object::new`: `GcHeapOutOfMemory<T>` carrying the type tag `T` of the
payload whose allocation failed, or any other error (carrying its
message). -/
inductive AllocError
  | gcHeapOutOfMemory (payload : PayloadType)
  | other (msg : String)
deriving DecidableEq, Repr

/-- `Object::<T>::new` from `src/object.rs:30-47`, parametric in the
external collaborators (`ExternRef::new` as `allocE`, `Store::gc` as
`gcF`) over an abstract store state `σ` and payload type `α`; handles
are `Nat`. The error-recovery branch performs the source's
`e.downcast::<GcHeapOutOfMemory<&str>>()`: the downcast succeeds only
when the failure is a `GcHeapOutOfMemory` whose type parameter is
`&str`, in which case the store is collected once and the allocation
retried with the recovered value; on a failed downcast the original
error is returned unchanged (`Err(e) => return Err(e)`). Returns the
result together with the number of garbage-collection passes
triggered. -/
def object_new {σ α : Type} (allocE : σ → α → Except AllocError (Nat × σ))
    (gcF : σ → σ) (s : σ) (v : α) :
    Except AllocError (Nat × σ) × Nat :=
  match allocE s v with
  | .ok r => (.ok r, 0)
  | .error e =>
    match e with
    | .gcHeapOutOfMemory PayloadType.strRef => (allocE (gcF s) v, 1)
    | .gcHeapOutOfMemory t => (.error (.gcHeapOutOfMemory t), 0)
    | .other m => (.error (.other m), 0)

/-- A store under heap pressure allocating a `NodeImpl` payload — the
repository's actual use of `Object::new`: the failure carries
`GcHeapOutOfMemory<NodeImpl>`, and one collection would free enough
space for the allocation to succeed (the handle returned is the
payload). -/
def nodeAllocUnderPressure : Bool → Nat → Except AllocError (Nat × Bool) :=
  fun collected v =>
    if collected then .ok (v, collected)
    else .error (.gcHeapOutOfMemory .nodeImpl)

/-- The same pressured store allocating a `&str` payload (the only
payload type the source's downcast target matches; the repository
never allocates one). -/
def strAllocUnderPressure : Bool → Nat → Except AllocError (Nat × Bool) :=
  fun collected v =>
    if collected then .ok (v, collected)
    else .error (.gcHeapOutOfMemory .strRef)

/-- Collector for the pressured stores: marks the store as collected. -/
def gcWitnessCollect : Bool → Bool := fun _ => true

/-- Handles into the traced heap (`Rooted<ExternRef>`); handle
identity (`Rooted::ref_eq`) is `Nat` equality. -/
abbrev Handle := Nat

/-- `NodeTypeData` from `src/dom/node.rs` (the `ElementImpl` /
`DocumentImpl` payloads are never read by the tree algorithms). -/
inductive NodeTypeData
  | element
  | document
  | none
deriving DecidableEq, Repr

/-- `NodeImpl` from `src/dom/node.rs` (the `_event_target` field is
never read or written by the tree algorithms and is omitted). -/
structure NodeImpl where
  parent_node : Option Handle := Option.none
  child_nodes : List Handle := []
  previous_sibling : Option Handle := Option.none
  next_sibling : Option Handle := Option.none
  node_document : Option Handle := Option.none
  data : NodeTypeData := .none
deriving DecidableEq, Repr

/-- The traced heap backing all `Node` handles. -/
abbrev Heap := Handle → NodeImpl

/-- Read a node's payload (`Object::data`). -/
def getNode (h : Heap) (i : Handle) : NodeImpl := h i

/-- Write a node's payload through `Object::data_mut`. -/
def setNode (h : Heap) (i : Handle) (f : NodeImpl → NodeImpl) : Heap :=
  fun j => if j = i then f (h i) else h j

/-- Wrapping `usize` subtraction (release-mode semantics, 64-bit). -/
def usizeSub (a b : Nat) : Nat := (a + (2 ^ 64 - b % 2 ^ 64)) % 2 ^ 64

/-- Checked `usize` subtraction (debug-mode semantics): `none` models
the overflow panic. -/
def usizeSubChecked (a b : Nat) : Option Nat :=
  if b ≤ a then some (a - b) else Option.none

/-- `Node::adopt` from `src/dom/node.rs:78-93`. The source's `not_same`
binding holds the result of the `Rooted::ref_eq` identity comparison
(`unwrap_or_default`, i.e. `false`, when either document is absent). -/
def Node.adopt (h : Heap) (node : Handle) (document : Option Handle) : Heap :=
  let old_document := (getNode h node).node_document
  let not_same :=
    match document, old_document with
    | some d, some od => decide (d = od)
    | _, _ => false
  if not_same then
    setNode h node (fun n => { n with node_document := document })
  else h

/-- `Node::append_child` from `src/dom/node.rs:96-103`: if `self`
already has a last child, link `old-last.next = node` and
`node.previous = old-last`, then push `node` onto the child sequence. -/
def Node.append_child (h : Heap) (self node : Handle) : Heap :=
  let h1 :=
    match (getNode h self).child_nodes.getLast? with
    | some child =>
      setNode (setNode h child (fun c => { c with next_sibling := some node }))
        node (fun n => { n with previous_sibling := some child })
    | Option.none => h
  setNode h1 self (fun s => { s with child_nodes := s.child_nodes ++ [node] })

/-- `Node::insert_child` from `src/dom/node.rs:106-118` under release
(wrapping) integer semantics: `index - 1` wraps on underflow, and the
then out-of-range `get` yields `None`, skipping the previous-sibling
link. -/
def Node.insert_child (h : Heap) (self : Handle) (index : Nat)
    (node : Handle) : Heap :=
  let h1 :=
    match (getNode h self).child_nodes.get? (usizeSub index 1) with
    | some prev =>
      setNode (setNode h prev (fun p => { p with next_sibling := some node }))
        node (fun n => { n with previous_sibling := some prev })
    | Option.none => h
  let h2 :=
    match (getNode h1 self).child_nodes.get? index with
    | some next =>
      setNode (setNode h1 node (fun n => { n with next_sibling := some next }))
        next (fun x => { x with previous_sibling := some node })
    | Option.none => h1
  setNode h2 self
    (fun s => { s with child_nodes := s.child_nodes.insertIdx index node })

/-- `Node::insert_child` under debug (checked) integer semantics:
`index - 1` panics on underflow, modelled as `none`. -/
def Node.insert_child_checked (h : Heap) (self : Handle) (index : Nat)
    (node : Handle) : Option Heap :=
  match usizeSubChecked index 1 with
  | Option.none => Option.none
  | some prevIdx =>
    let h1 :=
      match (getNode h self).child_nodes.get? prevIdx with
      | some prev =>
        setNode (setNode h prev (fun p => { p with next_sibling := some node }))
          node (fun n => { n with previous_sibling := some prev })
      | Option.none => h
    let h2 :=
      match (getNode h1 self).child_nodes.get? index with
      | some next =>
        setNode (setNode h1 node (fun n => { n with next_sibling := some next }))
          next (fun x => { x with previous_sibling := some node })
      | Option.none => h1
    some (setNode h2 self
      (fun s => { s with child_nodes := s.child_nodes.insertIdx index node }))

/-- `Node::insert` from `src/dom/node.rs:37-75` (single-node path; the
DocumentFragment handling is TODO in the source, and the
`_previous_sibling` binding is computed but unused). The node is first
adopted into `self`'s node document; a reference child is located by
handle identity, and a failed lookup silently drops the insertion (the
source's `else` branch holds only an unwritten `log warning` TODO). -/
def Node.insert (h : Heap) (self node : Handle) (child : Option Handle)
    (_suppress : Bool) : Heap :=
  let h1 := Node.adopt h node (getNode h self).node_document
  match child with
  | Option.none => Node.append_child h1 self node
  | some c =>
    match (getNode h1 self).child_nodes.findIdx? (fun n => n == c) with
    | some index => Node.insert_child h1 self index node
    | Option.none => h1

/-- `Node::pre_insert` from `src/dom/node.rs:18-34`. When the reference
child is identity-equal to the node being inserted, the source writes
`node.next_sibling = Some(reference)` (it does not redirect the local
reference), then delegates to `insert` with the original `child`. -/
def Node.pre_insert (h : Heap) (self node : Handle)
    (child : Option Handle) : Heap :=
  let h1 :=
    match child with
    | some reference =>
      if reference = node then
        setNode h node (fun n => { n with next_sibling := some reference })
      else h
    | Option.none => h
  Node.insert h1 self node child false

/-- Concrete heap for the adopt evaluation: node 0 is owned by
document 1; handle 2 is a distinct document. -/
def adoptHeap : Heap := fun j =>
  if j = 0 then { node_document := some 1, data := .element }
  else if j = 1 then { data := .document }
  else if j = 2 then { data := .document }
  else {}

/-- Concrete heap for the pre-insert / insert evaluations: parent 0
has children `[1, 2]` with the sibling chain `1 → 2`. -/
def preInsertHeap : Heap := fun j =>
  if j = 0 then { child_nodes := [1, 2], data := .document }
  else if j = 1 then { next_sibling := some 2 }
  else if j = 2 then { previous_sibling := some 1 }
  else {}

/-- Concrete heap for the append witness: parent 0 has the single
child 3; handles 1 and 2 are fresh nodes. -/
def appendHeap : Heap := fun j =>
  if j = 0 then { child_nodes := [3], data := .document }
  else {}

lemma alistGet_cons_self {β : Type} (m : List (ImmutableOrigin × β))
    (k : ImmutableOrigin) (v : β) : alistGet ((k, v) :: m) k = some v := by
  simp [alistGet]

lemma window_agent_mode (g : BrowsingContextGroup) (c : Nat)
    (O : ImmutableOrigin) (oac : Bool) :
    (window_agent g c O oac).2.1.isolation_mode = g.isolation_mode := by
  simp only [window_agent]
  split <;> rfl

lemma window_agent_hist (g : BrowsingContextGroup) (c : Nat)
    (O : ImmutableOrigin) (oac : Bool) :
    (window_agent g c O oac).2.1.historical_agent_cluster
      = (window_agent_key_hist g O oac).2 := by
  simp only [window_agent]
  split <;> rfl

lemma window_agent_cluster_lookup (g : BrowsingContextGroup) (c : Nat)
    (O : ImmutableOrigin) (oac : Bool) :
    ∃ cl, alistGet (window_agent g c O oac).2.1.agent_cluster
        (window_agent_key g O oac) = some cl
      ∧ cl.agent = (window_agent g c O oac).1 := by
  simp only [window_agent, window_agent_key]
  split
  next cl h => exact ⟨cl, h, rfl⟩
  next h => exact ⟨_, alistGet_cons_self _ _ _, rfl⟩

lemma window_agent_key_of_cached (g : BrowsingContextGroup)
    (O k : ImmutableOrigin) (oac : Bool)
    (h0 : ¬ g.isolation_mode = IsolationMode.none)
    (hl : alistGet g.historical_agent_cluster O = some k) :
    window_agent_key g O oac = k := by
  simp [window_agent_key, window_agent_key_hist, h0, hl]

lemma window_agent_key_after (g : BrowsingContextGroup) (c : Nat)
    (O : ImmutableOrigin) (oac : Bool) :
    window_agent_key (window_agent g c O oac).2.1 O oac
      = window_agent_key g O oac := by
  have hm := window_agent_mode g c O oac
  have hh := window_agent_hist g c O oac
  by_cases h0 : g.isolation_mode = IsolationMode.none
  · simp [window_agent_key, window_agent_key_hist, h0, hm]
  · cases hl : alistGet g.historical_agent_cluster O with
    | some k =>
      have hkh : window_agent_key_hist g O oac = (k, g.historical_agent_cluster) := by
        simp [window_agent_key_hist, h0, hl]
      rw [window_agent_key_of_cached _ O k oac (by rw [hm]; exact h0)
        (by rw [hh, hkh]; exact hl)]
      simp [window_agent_key, hkh]
    | none =>
      have hkh : window_agent_key_hist g O oac
          = (if oac then O else obtain_site O,
             (O, if oac then O else obtain_site O) :: g.historical_agent_cluster) := by
        simp [window_agent_key_hist, h0, hl]
      rw [window_agent_key_of_cached _ O (if oac then O else obtain_site O) oac
        (by rw [hm]; exact h0)
        (by rw [hh, hkh]; exact alistGet_cons_self _ _ _)]
      simp [window_agent_key, hkh]

lemma window_agent_eq_of_cluster (g : BrowsingContextGroup) (c : Nat)
    (O : ImmutableOrigin) (oac : Bool) (cl : AgentCluster)
    (h : alistGet g.agent_cluster (window_agent_key g O oac) = some cl) :
    window_agent g c O oac
      = (cl.agent,
         { g with historical_agent_cluster := (window_agent_key_hist g O oac).2 },
         c) := by
  simp only [window_agent]
  rw [show alistGet
      ({ g with historical_agent_cluster :=
          (window_agent_key_hist g O oac).2 } : BrowsingContextGroup).agent_cluster
      (window_agent_key_hist g O oac).1 = some cl from h]

lemma window_agent_second_call (g : BrowsingContextGroup) (c : Nat)
    (O : ImmutableOrigin) (oac : Bool) :
    (window_agent (window_agent g c O oac).2.1 (window_agent g c O oac).2.2
        O oac).1 = (window_agent g c O oac).1
    ∧ (window_agent (window_agent g c O oac).2.1 (window_agent g c O oac).2.2
        O oac).2.1.agent_cluster = (window_agent g c O oac).2.1.agent_cluster := by
  obtain ⟨cl, hcl, hag⟩ := window_agent_cluster_lookup g c O oac
  have hkey := window_agent_key_after g c O oac
  have h2 : alistGet (window_agent g c O oac).2.1.agent_cluster
      (window_agent_key (window_agent g c O oac).2.1 O oac) = some cl := by
    rw [hkey]; exact hcl
  have heq := window_agent_eq_of_cluster (window_agent g c O oac).2.1
    (window_agent g c O oac).2.2 O oac cl h2
  constructor
  · rw [heq]; exact hag
  · rw [heq]

lemma window_agent_run_mode (calls : List (ImmutableOrigin × Bool)) :
    ∀ (g : BrowsingContextGroup) (c : Nat),
      (window_agent_run g c calls).1.isolation_mode = g.isolation_mode := by
  induction calls with
  | nil => intro g c; rfl
  | cons hd tl ih =>
    intro g c
    simp only [window_agent_run]
    rw [ih, window_agent_mode]

lemma window_agent_run_hist_none (calls : List (ImmutableOrigin × Bool)) :
    ∀ (g : BrowsingContextGroup) (c : Nat),
      g.isolation_mode = IsolationMode.none →
      (window_agent_run g c calls).1.historical_agent_cluster
        = g.historical_agent_cluster := by
  induction calls with
  | nil => intro g c _; rfl
  | cons hd tl ih =>
    intro g c h0
    simp only [window_agent_run]
    rw [ih _ _ (by rw [window_agent_mode]; exact h0), window_agent_hist]
    simp [window_agent_key_hist, h0]

/-- C3: `window_agent` is idempotent per origin per group — a second
call with the same origin and OAC flag returns the same `AgentID` and
leaves the agent-cluster map unchanged — and keying is sticky: starting
from a group whose historical map is empty, once any sequence of calls
has recorded a key for an origin in the historical map, every later
call for that origin resolves to that cached key, for either OAC flag. -/
theorem window_agent_idempotent_and_sticky :
    (∀ (g : BrowsingContextGroup) (c : Nat) (O : ImmutableOrigin) (oac : Bool),
      (window_agent (window_agent g c O oac).2.1 (window_agent g c O oac).2.2
          O oac).1 = (window_agent g c O oac).1
      ∧ (window_agent (window_agent g c O oac).2.1 (window_agent g c O oac).2.2
          O oac).2.1.agent_cluster = (window_agent g c O oac).2.1.agent_cluster)
    ∧ (∀ (g0 : BrowsingContextGroup) (c0 : Nat)
        (calls : List (ImmutableOrigin × Bool)) (O k : ImmutableOrigin)
        (oac : Bool),
        g0.historical_agent_cluster = [] →
        alistGet (window_agent_run g0 c0 calls).1.historical_agent_cluster O
          = some k →
        window_agent_key (window_agent_run g0 c0 calls).1 O oac = k) := by
  constructor
  · exact fun g c O oac => window_agent_second_call g c O oac
  · intro g0 c0 calls O k oac hist0 hk
    by_cases h0 : (window_agent_run g0 c0 calls).1.isolation_mode
        = IsolationMode.none
    · exfalso
      rw [window_agent_run_mode] at h0
      rw [window_agent_run_hist_none _ _ _ h0, hist0] at hk
      simp [alistGet] at hk
    · simp [window_agent_key, window_agent_key_hist, h0, hk]

/-- C3 witness: a group with isolation mode `logical` (whose historical
map becomes populated) reuses the cached key on a later call with the
opposite OAC flag, and the theorem's hypotheses hold at this input. -/
theorem window_agent_idempotent_and_sticky_witness :
    (BrowsingContextGroup.historical_agent_cluster
        { isolation_mode := IsolationMode.logical } = [])
    ∧ alistGet (window_agent_run { isolation_mode := IsolationMode.logical } 0
          [(ImmutableOrigin.Tuple "https" "example.com" 443, false)]
        ).1.historical_agent_cluster
        (ImmutableOrigin.Tuple "https" "example.com" 443)
        = some (ImmutableOrigin.Tuple "https" "example.com" 65535)
    ∧ window_agent_key (window_agent_run
          { isolation_mode := IsolationMode.logical } 0
          [(ImmutableOrigin.Tuple "https" "example.com" 443, false)]).1
        (ImmutableOrigin.Tuple "https" "example.com" 443) true
        = ImmutableOrigin.Tuple "https" "example.com" 65535 :=
  ⟨rfl, by decide,
    window_agent_idempotent_and_sticky.2
      { isolation_mode := IsolationMode.logical } 0
      [(ImmutableOrigin.Tuple "https" "example.com" 443, false)]
      (ImmutableOrigin.Tuple "https" "example.com" 443)
      (ImmutableOrigin.Tuple "https" "example.com" 65535) true rfl (by decide)⟩

/-- C1 (code bug): for a group whose cross-origin isolation mode is
`logical`, `window_agent(origin, false)` keys the cluster by
`obtain_site(origin)` (port collapsed to 65535), not by the full
origin: no cluster is created under the full-origin key, the created
cluster is not origin-keyed, and a subsequent `oac = true` call also
resolves to the site key via the historical cache. The source's test
`isolation_mode == IsolationMode::None` is inverted relative to the
spec step quoted directly above it. -/
theorem window_agent_isolated_keys_by_site :
    window_agent_key { isolation_mode := IsolationMode.logical }
        (ImmutableOrigin.Tuple "https" "example.com" 443) false
      = ImmutableOrigin.Tuple "https" "example.com" 65535
    ∧ window_agent_key { isolation_mode := IsolationMode.logical }
        (ImmutableOrigin.Tuple "https" "example.com" 443) false
      ≠ ImmutableOrigin.Tuple "https" "example.com" 443
    ∧ alistGet (window_agent { isolation_mode := IsolationMode.logical } 0
          (ImmutableOrigin.Tuple "https" "example.com" 443) false).2.1.agent_cluster
        (ImmutableOrigin.Tuple "https" "example.com" 443) = Option.none
    ∧ alistGet (window_agent { isolation_mode := IsolationMode.logical } 0
          (ImmutableOrigin.Tuple "https" "example.com" 443) false).2.1.agent_cluster
        (ImmutableOrigin.Tuple "https" "example.com" 65535)
      = some { isolation_mode := IsolationMode.logical, origin_keyed := false,
               agent := 0 }
    ∧ window_agent_key
        (window_agent { isolation_mode := IsolationMode.logical } 0
          (ImmutableOrigin.Tuple "https" "example.com" 443) false).2.1
        (ImmutableOrigin.Tuple "https" "example.com" 443) true
      = ImmutableOrigin.Tuple "https" "example.com" 65535 := by
  decide

/-- C2 (code bug): under isolation mode `none` (the default), the code
sets the key to the full origin, so two tuple origins sharing scheme
and host and differing only in port receive *different* `AgentID`s even
with `oac = false` — the site-keyed sharing the claim describes never
happens. The returned IDs at this input are 0 and 1. -/
theorem window_agent_mode_none_not_site_keyed :
    (window_agent {} 0 (ImmutableOrigin.Tuple "https" "example.com" 443)
        false).1 = 0
    ∧ (window_agent
        (window_agent {} 0 (ImmutableOrigin.Tuple "https" "example.com" 443)
          false).2.1
        (window_agent {} 0 (ImmutableOrigin.Tuple "https" "example.com" 443)
          false).2.2
        (ImmutableOrigin.Tuple "https" "example.com" 8443) false).1 = 1
    ∧ (window_agent {} 0 (ImmutableOrigin.Tuple "https" "example.com" 443)
        false).1
      ≠ (window_agent
          (window_agent {} 0 (ImmutableOrigin.Tuple "https" "example.com" 443)
            false).2.1
          (window_agent {} 0 (ImmutableOrigin.Tuple "https" "example.com" 443)
            false).2.2
          (ImmutableOrigin.Tuple "https" "example.com" 8443) false).1 := by
  decide

/-- C6: an entry produced by `initialize` alone has `step = None`; the
entry committed by `create_top_traversable` is exactly the entry
`initialize` produced with its `step` then set once to `Some 0`; and
the traversable stored on the returned navigable contains exactly that
one entry. -/
theorem create_top_traversable_first_entry_step :
    (∀ (nav : Navigable) (state : DocumentState) (url : DOMUrl)
       (parent : Option Nat) (c : Nat),
      (Navigable.initialize_navigable nav state url parent c).1.step = Option.none)
    ∧ (∀ (dh : Nat) (du : DOMUrl) (dO : ImmutableOrigin)
        (dab : Option DOMUrl) (gid cid : Nat) (t : String) (nc sc : Nat),
        ∃ e : SessionHistory,
          (Navigable.create_top_traversable dh du dO dab gid cid t nc sc
            ).1.traversable = some { history_entries := [(e.id, e)] }
          ∧ e.step = some 0
          ∧ e = { (Navigable.initialize_navigable
                    { id := nc, browsing_context := [cid],
                      browsing_context_group := [gid] }
                    { initiator_origin := Option.none, origin := some dO,
                      target := t, about_base_url := dab,
                      document := some dh }
                    du Option.none sc).1 with step := some 0 }) := by
  constructor
  · intro nav state url parent c
    rfl
  · intro dh du dO dab gid cid t nc sc
    exact ⟨_, rfl, rfl, rfl⟩

/-- C9 (code bug): the recovery branch of `Object::new` downcasts the
allocation error to `GcHeapOutOfMemory<&str>` (src/object.rs:33), but
the repository only ever allocates `NodeImpl` / `WindowImpl` /
`DocumentImpl` / `ElementImpl` payloads, whose heap-pressure failures
carry those type parameters. The downcast therefore fails and the
original error falls into `Err(e) => return Err(e)`: zero collection
passes and no retry (first two conjuncts), even though a single
collection would have let the allocation succeed (third conjunct).
Only a — never allocated — `&str` payload would take the
collect-and-retry path (fourth conjunct). -/
theorem object_new_pressure_no_retry :
    object_new nodeAllocUnderPressure gcWitnessCollect false 7
      = (.error (.gcHeapOutOfMemory .nodeImpl), 0)
    ∧ (object_new nodeAllocUnderPressure gcWitnessCollect false 7).2 = 0
    ∧ nodeAllocUnderPressure (gcWitnessCollect false) 7 = .ok (7, true)
    ∧ object_new strAllocUnderPressure gcWitnessCollect false 7
      = (.ok (7, true), 1) := by
  refine ⟨rfl, rfl, rfl, rfl⟩

lemma getNode_setNode (h : Heap) (i : Handle) (f : NodeImpl → NodeImpl)
    (x : Handle) :
    getNode (setNode h i f) x
      = if x = i then f (getNode h i) else getNode h x := rfl

lemma getNode_setNode_self (h : Heap) (i : Handle) (f : NodeImpl → NodeImpl) :
    getNode (setNode h i f) i = f (getNode h i) := by
  simp [getNode_setNode]

lemma getNode_setNode_ne (h : Heap) (i : Handle) (f : NodeImpl → NodeImpl)
    (x : Handle) (hx : x ≠ i) : getNode (setNode h i f) x = getNode h x := by
  simp [getNode_setNode, hx]

lemma child_nodes_set_next (h : Heap) (i x : Handle) (w : Option Handle) :
    (getNode (setNode h i (fun nd => { nd with next_sibling := w }))
      x).child_nodes = (getNode h x).child_nodes := by
  by_cases hx : x = i
  · subst hx; rw [getNode_setNode_self]
  · rw [getNode_setNode_ne _ _ _ _ hx]

lemma child_nodes_set_prev (h : Heap) (i x : Handle) (w : Option Handle) :
    (getNode (setNode h i (fun nd => { nd with previous_sibling := w }))
      x).child_nodes = (getNode h x).child_nodes := by
  by_cases hx : x = i
  · subst hx; rw [getNode_setNode_self]
  · rw [getNode_setNode_ne _ _ _ _ hx]

lemma child_nodes_set_document (h : Heap) (i x : Handle) (w : Option Handle) :
    (getNode (setNode h i (fun nd => { nd with node_document := w }))
      x).child_nodes = (getNode h x).child_nodes := by
  by_cases hx : x = i
  · subst hx; rw [getNode_setNode_self]
  · rw [getNode_setNode_ne _ _ _ _ hx]

lemma next_set_prev (h : Heap) (i x : Handle) (w : Option Handle) :
    (getNode (setNode h i (fun nd => { nd with previous_sibling := w }))
      x).next_sibling = (getNode h x).next_sibling := by
  by_cases hx : x = i
  · subst hx; rw [getNode_setNode_self]
  · rw [getNode_setNode_ne _ _ _ _ hx]

lemma next_set_children (h : Heap) (i x : Handle) (t : NodeImpl → List Handle) :
    (getNode (setNode h i (fun nd => { nd with child_nodes := t nd }))
      x).next_sibling = (getNode h x).next_sibling := by
  by_cases hx : x = i
  · subst hx; rw [getNode_setNode_self]
  · rw [getNode_setNode_ne _ _ _ _ hx]

lemma prev_set_next (h : Heap) (i x : Handle) (w : Option Handle) :
    (getNode (setNode h i (fun nd => { nd with next_sibling := w }))
      x).previous_sibling = (getNode h x).previous_sibling := by
  by_cases hx : x = i
  · subst hx; rw [getNode_setNode_self]
  · rw [getNode_setNode_ne _ _ _ _ hx]

lemma prev_set_children (h : Heap) (i x : Handle) (t : NodeImpl → List Handle) :
    (getNode (setNode h i (fun nd => { nd with child_nodes := t nd }))
      x).previous_sibling = (getNode h x).previous_sibling := by
  by_cases hx : x = i
  · subst hx; rw [getNode_setNode_self]
  · rw [getNode_setNode_ne _ _ _ _ hx]

/-- C4 (code bug): `adopt` leaves the owning-document back-reference
unchanged in every case. At this input, node 0 is owned by document 1;
adopting it into the distinct document 2 is a no-op (the whole heap is
returned unchanged), and adopting it into document 1 (identity-equal)
performs the write, which cannot change the field's value. The
source's `not_same` binding actually holds the result of the *same*
comparison, inverting the spec step quoted above it. -/
theorem adopt_identity_check_inverted :
    Node.adopt adoptHeap 0 (some 2) = adoptHeap
    ∧ (getNode (Node.adopt adoptHeap 0 (some 2)) 0).node_document = some 1
    ∧ (getNode (Node.adopt adoptHeap 0 (some 1)) 0).node_document = some 1 := by
  exact ⟨rfl, rfl, by decide⟩

/-- C5 (code bug): pre-inserting node 2 before reference child 2 (the
node itself) on parent 0 with children `[1, 2]` sets the node's
next-sibling pointer to the node itself instead of redirecting the
reference, and then inserts before the un-redirected reference: the
child sequence becomes `[1, 2, 2]` and both sibling pointers of node 2
end up pointing at node 2 itself. -/
theorem pre_insert_self_reference :
    (getNode (Node.pre_insert preInsertHeap 0 2 (some 2)) 0).child_nodes
      = [1, 2, 2]
    ∧ (getNode (Node.pre_insert preInsertHeap 0 2 (some 2)) 2).next_sibling
      = some 2
    ∧ (getNode (Node.pre_insert preInsertHeap 0 2 (some 2)) 2).previous_sibling
      = some 2 := by
  decide

lemma adopt_child_nodes (h : Heap) (n : Handle) (d : Option Handle)
    (x : Handle) :
    (getNode (Node.adopt h n d) x).child_nodes = (getNode h x).child_nodes := by
  simp only [Node.adopt]
  split
  · exact child_nodes_set_document h n x d
  · rfl

lemma findIdx?_beq_none {c : Handle} :
    ∀ (l : List Handle), ¬ c ∈ l → ∀ i,
      List.findIdx? (fun n => n == c) l i = Option.none := by
  intro l
  induction l with
  | nil => intro _ i; rfl
  | cons a t ih =>
    intro hc i
    rw [List.findIdx?_cons]
    have ha : (a == c) = false := by
      simp only [beq_eq_false_iff_ne, ne_eq]
      intro hac
      exact hc (hac ▸ List.mem_cons_self a t)
    rw [ha]
    simp only [Bool.false_eq_true, if_false]
    exact ih (fun hmem => hc (List.mem_cons_of_mem a hmem)) (i + 1)

/-- C8: when the reference child is not identity-equal to any element
of the parent's child sequence, `insert` returns without error and no
child sequence in the heap changes — the insertion is silently
dropped. -/
theorem insert_missing_reference_drops (h : Heap) (self node c : Handle)
    (s : Bool) (hc : ¬ c ∈ (getNode h self).child_nodes) :
    ∀ x, (getNode (Node.insert h self node (some c) s) x).child_nodes
      = (getNode h x).child_nodes := by
  intro x
  have hidx : List.findIdx? (fun n => n == c)
      ((getNode (Node.adopt h node (getNode h self).node_document)
        self).child_nodes) 0 = Option.none := by
    rw [adopt_child_nodes]
    exact findIdx?_beq_none _ hc 0
  simp only [Node.insert]
  rw [hidx]
  exact adopt_child_nodes h node _ x

/-- C8 witness: reference child 5 is not among parent 0's children
`[1, 2]`, and the insertion of node 3 leaves the parent's child
sequence unchanged. -/
theorem insert_missing_reference_drops_witness :
    (¬ (5 : Handle) ∈ (getNode preInsertHeap 0).child_nodes)
    ∧ (getNode (Node.insert preInsertHeap 0 3 (some 5) false) 0).child_nodes
      = (getNode preInsertHeap 0).child_nodes :=
  ⟨by decide, insert_missing_reference_drops preInsertHeap 0 3 5 false
    (by decide) 0⟩

/-- C10 counterexample: under Rust's debug (checked) integer
semantics, `insert_child(parent, 0, node)` on a parent with children
`[1, 2]` panics — the `index - 1` previous-sibling lookup underflows
`usize`, so the lookup is not total and the claim as stated fails. -/
theorem insert_child_checked_underflow_at_zero :
    Node.insert_child_checked preInsertHeap 0 0 3 = Option.none := rfl

/-- C10 amended: the `index - 1` computation in `insert_child` at
index 0 always underflows (checked arithmetic panics: first conjunct);
under release (wrapping) semantics the wrapped index `2^64 - 1` is out
of range for any child list shorter than `2^64`, so the
previous-sibling step is skipped and the insertion still succeeds:
node becomes the front of the child sequence, node's next sibling is
the old first child and the old first child's previous sibling is
node. -/
theorem insert_child_front_wrapping (h : Heap) (p n f : Handle)
    (rest : List Handle)
    (hch : (getNode h p).child_nodes = f :: rest)
    (hlen : (f :: rest).length < 2 ^ 64) :
    Node.insert_child_checked h p 0 n = Option.none
    ∧ (getNode (Node.insert_child h p 0 n) p).child_nodes = n :: f :: rest
    ∧ (getNode (Node.insert_child h p 0 n) n).next_sibling = some f
    ∧ (getNode (Node.insert_child h p 0 n) f).previous_sibling = some n := by
  have hsub : usizeSub 0 1 = 2 ^ 64 - 1 := by decide
  have hget1 : (getNode h p).child_nodes.get? (usizeSub 0 1) = Option.none := by
    rw [hch, hsub]
    apply List.get?_eq_none.mpr
    have : (f :: rest).length < 2 ^ 64 := hlen
    omega
  have hget2 : (getNode h p).child_nodes.get? 0 = some f := by rw [hch]; rfl
  have heq : Node.insert_child h p 0 n
      = setNode (setNode (setNode h n
            (fun nn => { nn with next_sibling := some f }))
          f (fun x => { x with previous_sibling := some n })) p
          (fun s => { s with child_nodes := s.child_nodes.insertIdx 0 n }) := by
    simp only [Node.insert_child]
    simp only [hget1, hget2]
  refine ⟨rfl, ?_, ?_, ?_⟩
  · rw [heq, getNode_setNode_self, child_nodes_set_prev, child_nodes_set_next,
      hch]
    rfl
  · rw [heq, next_set_children]
    by_cases hnf : n = f
    · subst hnf
      rw [getNode_setNode_self, getNode_setNode_self]
    · rw [getNode_setNode_ne _ _ _ _ hnf, getNode_setNode_self]
  · rw [heq, prev_set_children, getNode_setNode_self]

/-- C10 witness: inserting node 3 at index 0 of parent 0 (children
`[1, 2]`) in the concrete heap satisfies the theorem's hypotheses and
yields child sequence `[3, 1, 2]` with the stated sibling links. -/
theorem insert_child_front_wrapping_witness :
    ((getNode preInsertHeap 0).child_nodes = 1 :: [2]
      ∧ (1 :: [2] : List Handle).length < 2 ^ 64)
    ∧ (Node.insert_child_checked preInsertHeap 0 0 3 = Option.none
      ∧ (getNode (Node.insert_child preInsertHeap 0 0 3) 0).child_nodes
          = 3 :: 1 :: [2]
      ∧ (getNode (Node.insert_child preInsertHeap 0 0 3) 3).next_sibling
          = some 1
      ∧ (getNode (Node.insert_child preInsertHeap 0 0 3) 1).previous_sibling
          = some 3) :=
  ⟨⟨rfl, by norm_num⟩,
   insert_child_front_wrapping preInsertHeap 0 3 1 [2] rfl (by norm_num)⟩

lemma mem_of_getLast?_eq (l : List Handle) :
    ∀ {a : Handle}, l.getLast? = some a → a ∈ l := by
  induction l with
  | nil => intro a h; cases h
  | cons x t ih =>
    intro a h
    cases t with
    | nil =>
      have hx : x = a := by
        have : some x = some a := h
        exact Option.some.inj this
      simp [hx]
    | cons y u =>
      rw [List.getLast?_cons_cons] at h
      exact List.mem_cons_of_mem _ (ih h)

lemma getLast?_concat_eq (l : List Handle) (x : Handle) :
    (l ++ [x]).getLast? = some x := by
  induction l with
  | nil => rfl
  | cons a t ih =>
    rw [List.cons_append]
    cases ht : t ++ [x] with
    | nil => exact absurd ht (by simp)
    | cons z w =>
      rw [List.getLast?_cons_cons]
      rw [← ht, ih]

lemma append_child_self_children (h : Heap) (a b : Handle) :
    (getNode (Node.append_child h a b) a).child_nodes
      = (getNode h a).child_nodes ++ [b] := by
  simp only [Node.append_child]
  cases hL : (getNode h a).child_nodes.getLast? with
  | none =>
    simp only [hL]
    rw [getNode_setNode_self]
  | some L =>
    simp only [hL]
    rw [getNode_setNode_self, child_nodes_set_prev, child_nodes_set_next]

lemma append_child_prev_of_appended (h : Heap) (a b : Handle) :
    (getNode (Node.append_child h a b) b).previous_sibling
      = match (getNode h a).child_nodes.getLast? with
        | some L => some L
        | Option.none => (getNode h b).previous_sibling := by
  cases hL : (getNode h a).child_nodes.getLast? with
  | none =>
    simp only [Node.append_child, hL]
    rw [prev_set_children]
  | some L =>
    simp only [Node.append_child, hL]
    rw [prev_set_children, getNode_setNode_self]

lemma append_child_next_of_appended (h : Heap) (a b : Handle)
    (hmem : ¬ b ∈ (getNode h a).child_nodes) :
    (getNode (Node.append_child h a b) b).next_sibling
      = (getNode h b).next_sibling := by
  cases hL : (getNode h a).child_nodes.getLast? with
  | none =>
    simp only [Node.append_child, hL]
    rw [next_set_children]
  | some L =>
    have hLb : b ≠ L := fun e => hmem (e ▸ mem_of_getLast?_eq _ hL)
    simp only [Node.append_child, hL]
    rw [next_set_children, next_set_prev, getNode_setNode_ne _ _ _ _ hLb]

lemma append_child_next_of_last (h : Heap) (a b L : Handle)
    (hL : (getNode h a).child_nodes.getLast? = some L) :
    (getNode (Node.append_child h a b) L).next_sibling = some b := by
  simp only [Node.append_child, hL]
  rw [next_set_children, next_set_prev, getNode_setNode_self]

lemma append_child_preserves_prev (h : Heap) (a b x : Handle) (hxb : x ≠ b) :
    (getNode (Node.append_child h a b) x).previous_sibling
      = (getNode h x).previous_sibling := by
  cases hL : (getNode h a).child_nodes.getLast? with
  | none =>
    simp only [Node.append_child, hL]
    rw [prev_set_children]
  | some L =>
    simp only [Node.append_child, hL]
    rw [prev_set_children, getNode_setNode_ne _ _ _ _ hxb, prev_set_next]

lemma append_child_preserves_next (h : Heap) (a b x : Handle)
    (hxL : (getNode h a).child_nodes.getLast? ≠ some x) :
    (getNode (Node.append_child h a b) x).next_sibling
      = (getNode h x).next_sibling := by
  cases hL : (getNode h a).child_nodes.getLast? with
  | none =>
    simp only [Node.append_child, hL]
    rw [next_set_children]
  | some L =>
    have hxL' : x ≠ L := fun e => hxL (by rw [hL, e])
    simp only [Node.append_child, hL]
    rw [next_set_children, next_set_prev, getNode_setNode_ne _ _ _ _ hxL']

/-- C7: appending fresh nodes `b` then `c` to parent `a` via
`append_child` extends `a`'s child sequence to `.. ++ [b, c]`, links
`b.next = c` and `c.previous = b`, and leaves every sibling pointer of
`b` and `c` referring to a node of `a`'s final child sequence (the old
last child for `b.previous`, nothing dangling). -/
theorem append_child_appends_and_links (h : Heap) (a b c : Handle)
    (hbc : b ≠ c) (hab : a ≠ b) (hac : a ≠ c)
    (hbm : ¬ b ∈ (getNode h a).child_nodes)
    (hcm : ¬ c ∈ (getNode h a).child_nodes)
    (hbp : (getNode h b).previous_sibling = Option.none)
    (hbn : (getNode h b).next_sibling = Option.none)
    (hcp : (getNode h c).previous_sibling = Option.none)
    (hcn : (getNode h c).next_sibling = Option.none) :
    (getNode (Node.append_child (Node.append_child h a b) a c) a).child_nodes
        = (getNode h a).child_nodes ++ [b, c]
    ∧ (getNode (Node.append_child (Node.append_child h a b) a c)
        b).next_sibling = some c
    ∧ (getNode (Node.append_child (Node.append_child h a b) a c)
        c).previous_sibling = some b
    ∧ ∀ x,
        ((getNode (Node.append_child (Node.append_child h a b) a c)
            b).previous_sibling = some x
          ∨ (getNode (Node.append_child (Node.append_child h a b) a c)
            b).next_sibling = some x
          ∨ (getNode (Node.append_child (Node.append_child h a b) a c)
            c).previous_sibling = some x
          ∨ (getNode (Node.append_child (Node.append_child h a b) a c)
            c).next_sibling = some x) →
        x ∈ (getNode (Node.append_child (Node.append_child h a b) a c)
          a).child_nodes := by
  have hch1 : (getNode (Node.append_child h a b) a).child_nodes
      = (getNode h a).child_nodes ++ [b] := append_child_self_children h a b
  have hlast1 : (getNode (Node.append_child h a b) a).child_nodes.getLast?
      = some b := by
    rw [hch1]; exact getLast?_concat_eq _ _
  have hch2 : (getNode (Node.append_child (Node.append_child h a b) a
      c) a).child_nodes = (getNode h a).child_nodes ++ [b, c] := by
    rw [append_child_self_children, hch1, List.append_assoc]
    rfl
  have hbnext2 : (getNode (Node.append_child (Node.append_child h a b) a
      c) b).next_sibling = some c :=
    append_child_next_of_last _ a c b hlast1
  have hcprev2 : (getNode (Node.append_child (Node.append_child h a b) a
      c) c).previous_sibling = some b := by
    rw [append_child_prev_of_appended, hlast1]
  have hbprev2 : (getNode (Node.append_child (Node.append_child h a b) a
      c) b).previous_sibling
      = match (getNode h a).child_nodes.getLast? with
        | some L => some L
        | Option.none => Option.none := by
    rw [append_child_preserves_prev _ a c b hbc,
      append_child_prev_of_appended h a b]
    cases hL0 : (getNode h a).child_nodes.getLast? with
    | none => rw [hbp]
    | some L => rfl
  have hcnext2 : (getNode (Node.append_child (Node.append_child h a b) a
      c) c).next_sibling = Option.none := by
    rw [append_child_preserves_next _ a c c
        (by rw [hlast1]; exact fun e => hbc (Option.some.inj e)),
      append_child_preserves_next h a b c, hcn]
    cases hL0 : (getNode h a).child_nodes.getLast? with
    | none => exact fun e => by cases e
    | some L =>
      have hLc : L ≠ c := fun e => hcm (e ▸ mem_of_getLast?_eq _ hL0)
      exact fun e => hLc (Option.some.inj e)
  refine ⟨hch2, hbnext2, hcprev2, ?_⟩
  intro x hx
  rw [hch2]
  rcases hx with hx | hx | hx | hx
  · rw [hbprev2] at hx
    cases hL0 : (getNode h a).child_nodes.getLast? with
    | none => rw [hL0] at hx; cases hx
    | some L =>
      rw [hL0] at hx
      have hxL : L = x := Option.some.inj hx
      exact List.mem_append_left _ (hxL ▸ mem_of_getLast?_eq _ hL0)
  · rw [hbnext2] at hx
    have : c = x := Option.some.inj hx
    subst this
    simp
  · rw [hcprev2] at hx
    have : b = x := Option.some.inj hx
    subst this
    simp
  · rw [hcnext2] at hx
    cases hx

/-- C7 witness: appending fresh nodes 1 then 2 to parent 0 (existing
child 3) in the concrete heap satisfies the theorem's hypotheses and
yields child sequence `[3, 1, 2]` with `1.next = 2` and
`2.previous = 1` and no dangling sibling pointers. -/
theorem append_child_appends_and_links_witness :
    ((1 : Handle) ≠ 2 ∧ (0 : Handle) ≠ 1 ∧ (0 : Handle) ≠ 2
      ∧ ¬ (1 : Handle) ∈ (getNode appendHeap 0).child_nodes
      ∧ ¬ (2 : Handle) ∈ (getNode appendHeap 0).child_nodes
      ∧ (getNode appendHeap 1).previous_sibling = Option.none
      ∧ (getNode appendHeap 1).next_sibling = Option.none
      ∧ (getNode appendHeap 2).previous_sibling = Option.none
      ∧ (getNode appendHeap 2).next_sibling = Option.none)
    ∧ ((getNode (Node.append_child (Node.append_child appendHeap 0 1) 0 2)
          0).child_nodes = (getNode appendHeap 0).child_nodes ++ [1, 2]
      ∧ (getNode (Node.append_child (Node.append_child appendHeap 0 1) 0 2)
          1).next_sibling = some 2
      ∧ (getNode (Node.append_child (Node.append_child appendHeap 0 1) 0 2)
          2).previous_sibling = some 1
      ∧ ∀ x,
          ((getNode (Node.append_child (Node.append_child appendHeap 0 1) 0 2)
              1).previous_sibling = some x
            ∨ (getNode (Node.append_child (Node.append_child appendHeap 0 1)
              0 2) 1).next_sibling = some x
            ∨ (getNode (Node.append_child (Node.append_child appendHeap 0 1)
              0 2) 2).previous_sibling = some x
            ∨ (getNode (Node.append_child (Node.append_child appendHeap 0 1)
              0 2) 2).next_sibling = some x) →
          x ∈ (getNode (Node.append_child (Node.append_child appendHeap 0 1)
            0 2) 0).child_nodes) :=
  ⟨⟨by decide, by decide, by decide, by decide, by decide, rfl, rfl, rfl, rfl⟩,
   append_child_appends_and_links appendHeap 0 1 2 (by decide) (by decide)
     (by decide) (by decide) (by decide) rfl rfl rfl rfl⟩

end Ohim
